import Mathlib

/-!
# Verification of `transcribe.py`

A shallow embedding of the audio-transcription command-line tool
(`transcribe.py`) and proofs about it.

The tool's observable behaviour is modelled as pure Lean functions:

* POSIX `pathlib.Path` operations (`parse`, `str`, `name`, `stem`, `parent`,
  `/`-join) are embedded as functions over lists of characters (`PPath`);
* the filesystem is an abstract state `FS` (existence predicate plus file
  contents as UTF-8 byte lists);
* the external whisper collaborator is a parameter (`Whisper`, `Model`)
  whose calls are recorded in an event trace;
* `os.environ` is an abstract map `EnvSt`;
* `transcribe`, `setup_ffmpeg`, `main` and the argparse configuration of
  `main` are translated line by line from the source.
-/

namespace Audiofile

/-! ## Python string primitives -/

/-- The whitespace characters removed by Python `str.strip()`
(ASCII whitespace plus the Unicode space characters Python treats as
whitespace). -/
def pySpaceChars : List Char :=
  [' ', '\t', '\n', '\r', '\x0b', '\x0c',
   Char.ofNat 0x1c, Char.ofNat 0x1d, Char.ofNat 0x1e, Char.ofNat 0x1f,
   Char.ofNat 0x85, Char.ofNat 0xa0, Char.ofNat 0x1680,
   Char.ofNat 0x2000, Char.ofNat 0x2001, Char.ofNat 0x2002,
   Char.ofNat 0x2003, Char.ofNat 0x2004, Char.ofNat 0x2005,
   Char.ofNat 0x2006, Char.ofNat 0x2007, Char.ofNat 0x2008,
   Char.ofNat 0x2009, Char.ofNat 0x200a, Char.ofNat 0x2028,
   Char.ofNat 0x2029, Char.ofNat 0x202f, Char.ofNat 0x205f,
   Char.ofNat 0x3000]

/-- Whether `str.strip()` removes the character `c`. -/
def pyIsSpace (c : Char) : Bool := pySpaceChars.contains c

/-- Python `s.strip()`: remove leading and trailing whitespace. -/
def pyStrip (s : String) : String :=
  ⟨((s.data.dropWhile pyIsSpace).reverse.dropWhile pyIsSpace).reverse⟩

/-- UTF-8 encoding of one character, as natural-number byte values. -/
def utf8EncodeChar (c : Char) : List Nat :=
  let n := c.toNat
  if n < 0x80 then [n]
  else if n < 0x800 then [0xc0 + n / 0x40, 0x80 + n % 0x40]
  else if n < 0x10000 then
    [0xe0 + n / 0x1000, 0x80 + n / 0x40 % 0x40, 0x80 + n % 0x40]
  else
    [0xf0 + n / 0x40000, 0x80 + n / 0x1000 % 0x40,
     0x80 + n / 0x40 % 0x40, 0x80 + n % 0x40]

/-- UTF-8 encoding of a string (the bytes `encoding="utf-8"` produces). -/
def utf8Bytes (s : String) : List Nat := s.data.flatMap utf8EncodeChar

/-! ## `pathlib.PurePosixPath`

`Path(s)` normalises a path string into a root flag and a list of
components, dropping empty and `"."` components.  (The obscure CPython
special case of a double-slash `"//"` root is not modelled.) -/

/-- Split a character list on `'/'` (like `str.split("/")`). -/
def splitOnSlash : List Char → List (List Char)
  | [] => [[]]
  | c :: cs =>
    if c = '/' then [] :: splitOnSlash cs
    else
      match splitOnSlash cs with
      | [] => [[c]]
      | g :: gs => (c :: g) :: gs

/-- A normalised POSIX path: absolute flag plus non-empty, non-`"."`
components. -/
structure PPath where
  absolute : Bool
  parts : List (List Char)
deriving DecidableEq, Repr

/-- `pathlib.Path(s)` for a POSIX path string. -/
def PPath.parse (s : String) : PPath :=
  { absolute := s.data.head? == some '/',
    parts := (splitOnSlash s.data).filter (fun g => g ≠ [] ∧ g ≠ ['.']) }

/-- `str(p)` as a character list. -/
def PPath.strChars (p : PPath) : List Char :=
  if p.parts = [] then (if p.absolute then ['/'] else ['.'])
  else (if p.absolute then ['/'] else []) ++ List.intercalate ['/'] p.parts

/-- `str(p)`. -/
def PPath.str (p : PPath) : String := ⟨p.strChars⟩

/-- `p.name` (final component; `""` for `"/"` and `"."`), as characters. -/
def PPath.nameChars (p : PPath) : List Char := p.parts.getLast?.getD []

/-- `p.parent`: drop the final component. -/
def PPath.parent (p : PPath) : PPath :=
  { absolute := p.absolute, parts := p.parts.dropLast }

/-- `name.rfind(".")`: the index of the last `'.'`, or `none`. -/
def rfindDotIdx : List Char → Option Nat
  | [] => none
  | c :: cs =>
    match rfindDotIdx cs with
    | some i => some (i + 1)
    | none => if c = '.' then some 0 else none

/-- `PurePath.stem` on a file name: the name without its final suffix.
CPython: with `i = name.rfind(".")`, the stem is `name[:i]` when
`0 < i < len(name) - 1`, else the whole name. -/
def stemChars (name : List Char) : List Char :=
  match rfindDotIdx name with
  | none => name
  | some i => if 0 < i ∧ i < name.length - 1 then name.take i else name

/-- `p.stem`, as characters. -/
def PPath.stem (p : PPath) : List Char := stemChars p.nameChars

/-- `p / s`: pathlib `/`-join with a (relative or absolute) string. -/
def PPath.join (p : PPath) (s : String) : PPath :=
  let q := PPath.parse s
  if q.absolute then q
  else { absolute := p.absolute, parts := p.parts ++ q.parts }

/-! ## Abstract filesystem -/

/-- Filesystem state: which paths exist (files or directories), and the
byte contents of the regular files among them.  Keys are normalised path
strings. -/
structure FS where
  existsPath : String → Bool
  content : String → Option (List Nat)

/-- `Path(p).write_text(s, encoding="utf-8")`: create or overwrite the
file at `p` with the UTF-8 encoding of `s`. -/
def FS.write_text (fs : FS) (p : String) (s : String) : FS :=
  { existsPath := fun q => if q = p then true else fs.existsPath q,
    content := fun q => if q = p then some (utf8Bytes s) else fs.content q }

/-! ## The whisper collaborator -/

/-- The model's transcription result; only the `text` field is used by the
tool. -/
structure TranscribeResult where
  text : String
deriving DecidableEq, Repr

/-- A loaded whisper model: `model.transcribe(path, language=...)`, which
may fail (decoder failure, inference failure, ...). -/
structure Model where
  transcribe : String → Option String → Except String TranscribeResult

/-- The whisper library: `whisper.load_model(name)`, which may fail. -/
structure Whisper where
  load_model : String → Except String Model

/-- Errors the `transcribe` operation can terminate with. -/
inductive TError where
  | fileNotFound (msg : String)
  | modelLoadError (msg : String)
  | inferenceError (msg : String)
deriving DecidableEq, Repr

/-- Observable calls made during a run, in order. -/
inductive Event where
  | setupFfmpegRun
  | loadModel (model_name : String)
  | modelTranscribe (audio : String) (language : Option String)
  | writeFile (path : String) (bytes : List Nat)
deriving DecidableEq, Repr

/-! ## The `transcribe` operation -/

/-- Outcome of one `transcribe` call: the returned text or the raised
error, the final filesystem, and the trace of collaborator calls. -/
structure TOutcome where
  result : Except TError String
  fs : FS
  events : List Event

/-- The resolved output directory:
`output_dir = Path(output_dir) if output_dir else audio_path.parent`.
Python truthiness: both `None` and the empty string are falsy, so an
empty `output_dir` also falls back to the audio file's own directory. -/
def resolvedOutDir (audio_path : String) (output_dir : Option String) : PPath :=
  match output_dir with
  | some d =>
    if d = "" then (PPath.parse audio_path).parent else PPath.parse d
  | none => (PPath.parse audio_path).parent

/-- The output path:
`output_path = output_dir / f"{audio_path.stem}_transcript.txt"`. -/
def outputPathOf (audio_path : String) (output_dir : Option String) : PPath :=
  (resolvedOutDir audio_path output_dir).join
    ((⟨(PPath.parse audio_path).stem⟩ : String) ++ "_transcript.txt")

/-- `transcribe(audio_path, model_name, output_dir, language)`,
translated line by line from the source. -/
def transcribe (w : Whisper) (fs : FS) (audio_path : String)
    (model_name : String) (output_dir : Option String)
    (language : Option String) : TOutcome :=
  let ap := PPath.parse audio_path
  if fs.existsPath ap.str = false then
    { result := .error (.fileNotFound ("Audio file not found: " ++ ap.str)),
      fs := fs, events := [] }
  else
    match w.load_model model_name with
    | .error e =>
      { result := .error (.modelLoadError e), fs := fs,
        events := [.loadModel model_name] }
    | .ok model =>
      match model.transcribe ap.str language with
      | .error e =>
        { result := .error (.inferenceError e), fs := fs,
          events := [.loadModel model_name, .modelTranscribe ap.str language] }
      | .ok result =>
        let output_path := outputPathOf audio_path output_dir
        let fs' := fs.write_text output_path.str (pyStrip result.text)
        { result := .ok result.text, fs := fs',
          events := [.loadModel model_name, .modelTranscribe ap.str language,
                     .writeFile output_path.str (utf8Bytes (pyStrip result.text))] }

/-! ## `setup_ffmpeg` -/

/-- Process environment variables (`os.environ`). -/
structure EnvSt where
  vars : String → Option String

/-- `os.pathsep` (POSIX). -/
def os_pathsep : String := ":"

/-- `setup_ffmpeg()`.  The soft dependency `imageio_ffmpeg` is modelled as
`Option String`: `some exe` when the library is importable and
`get_ffmpeg_exe()` returns `exe`, `none` when importing raises
`ImportError`.  Returns the new environment and the printed lines, or the
propagated error (`KeyError` when `PATH` is unset). -/
def setup_ffmpeg (imageio_ffmpeg : Option String) (env : EnvSt) :
    Except String (EnvSt × List String) :=
  match imageio_ffmpeg with
  | none =>
    .ok (env,
      ["Warning: imageio-ffmpeg not installed, assuming ffmpeg is in PATH"])
  | some exe =>
    let ffmpeg_path := (PPath.parse exe).parent
    match env.vars "PATH" with
    | none => .error "KeyError: PATH"
    | some p =>
      .ok ({ vars := fun k =>
               if k = "PATH" then some (ffmpeg_path.str ++ os_pathsep ++ p)
               else env.vars k },
           ["Using ffmpeg from: " ++ ffmpeg_path.str])

/-! ## Command-line entry point -/

/-- The parsed arguments of `main`. -/
structure Args where
  audio : String
  model : String
  output_dir : Option String
  language : Option String
deriving DecidableEq, Repr

/-- The `choices` list of `-m` / `--model`. -/
def modelChoices : List String := ["tiny", "base", "small", "medium", "large"]

/-- Whether argparse treats the token as an optional (starts with the
prefix character `-` and is not the bare `-`). -/
def looksLikeOption (t : String) : Bool :=
  t.data.head? == some '-' && t != "-"

/-- The argparse configuration of `main`: one required positional `audio`;
`-m` / `--model` validated against `modelChoices` with default `"base"`;
`-o` / `--output-dir`; `-l` / `--language`.  Option values are given as
separate
tokens; an invalid `-m` choice or an unknown option is a parse error. -/
def parseArgsAux : List String → Option String → Option String →
    Option String → Option String → Except String Args
  | [], audio?, m?, o?, l? =>
    match audio? with
    | none => .error "the following arguments are required: audio"
    | some a =>
      .ok { audio := a, model := m?.getD "base", output_dir := o?,
            language := l? }
  | t :: ts, audio?, m?, o?, l? =>
    if t = "-m" ∨ t = "--model" then
      match ts with
      | [] => .error "argument -m/--model: expected one argument"
      | v :: ts' =>
        if v ∈ modelChoices then parseArgsAux ts' audio? (some v) o? l?
        else .error ("argument -m/--model: invalid choice: " ++ v)
    else if t = "-o" ∨ t = "--output-dir" then
      match ts with
      | [] => .error "argument -o/--output-dir: expected one argument"
      | v :: ts' => parseArgsAux ts' audio? m? (some v) l?
    else if t = "-l" ∨ t = "--language" then
      match ts with
      | [] => .error "argument -l/--language: expected one argument"
      | v :: ts' => parseArgsAux ts' audio? m? o? (some v)
    else if looksLikeOption t then
      .error ("unrecognized arguments: " ++ t)
    else
      match audio? with
      | none => parseArgsAux ts (some t) m? o? l?
      | some _ => .error ("unrecognized arguments: " ++ t)

/-- `parser.parse_args(argv)`. -/
def parseArgs (argv : List String) : Except String Args :=
  parseArgsAux argv none none none none

/-- Outcome of one `main` invocation: process exit code (0 success,
2 argparse error, 1 propagated exception), final environment, final
filesystem and event trace. -/
structure MainOutcome where
  exitCode : Nat
  env : EnvSt
  fs : FS
  events : List Event

/-- `main()`: parse arguments, run `setup_ffmpeg`, then `transcribe`,
discarding its return value. -/
def main (w : Whisper) (imageio_ffmpeg : Option String) (env : EnvSt)
    (fs : FS) (argv : List String) : MainOutcome :=
  match parseArgs argv with
  | .error _ => { exitCode := 2, env := env, fs := fs, events := [] }
  | .ok args =>
    match setup_ffmpeg imageio_ffmpeg env with
    | .error _ =>
      { exitCode := 1, env := env, fs := fs, events := [.setupFfmpegRun] }
    | .ok (env', _msgs) =>
      let t := transcribe w fs args.audio args.model args.output_dir
                 args.language
      { exitCode := match t.result with | .ok _ => 0 | .error _ => 1,
        env := env', fs := t.fs, events := .setupFfmpegRun :: t.events }

/-! ## Concrete collaborators and states used to instantiate theorems -/

/-- A whisper stub whose model always transcribes to `t`. -/
def wStub (t : String) : Whisper := ⟨fun _ => .ok ⟨fun _ _ => .ok ⟨t⟩⟩⟩

/-- An empty filesystem. -/
def fsEmpty : FS := ⟨fun _ => false, fun _ => none⟩

/-- A filesystem holding exactly the file `a.mp3`. -/
def fsAudio : FS := ⟨fun q => q == "a.mp3", fun _ => none⟩

/-- A filesystem where `somedir` exists but is not a regular file. -/
def fsDir : FS := ⟨fun q => q == "somedir", fun _ => none⟩

/-- A filesystem holding exactly the file `dir/talk.mp3`. -/
def fsTalk : FS := ⟨fun q => q == "dir/talk.mp3", fun _ => none⟩

/-- An environment with only `PATH` set. -/
def env0 : EnvSt := ⟨fun k => if k = "PATH" then some "/usr/bin" else none⟩

/-! ## Branch characterisations of `transcribe` -/

theorem transcribe_spec_missing (w : Whisper) (fs : FS) (a m : String)
    (o l : Option String)
    (hex : fs.existsPath (PPath.parse a).str = false) :
    transcribe w fs a m o l =
      { result := .error (.fileNotFound
          ("Audio file not found: " ++ (PPath.parse a).str)),
        fs := fs, events := [] } := by
  simp [transcribe, hex]

theorem transcribe_spec_loadError (w : Whisper) (fs : FS) (a m : String)
    (o l : Option String) (e : String)
    (hex : fs.existsPath (PPath.parse a).str = true)
    (hload : w.load_model m = .error e) :
    transcribe w fs a m o l =
      { result := .error (.modelLoadError e), fs := fs,
        events := [.loadModel m] } := by
  simp [transcribe, hex, hload]

theorem transcribe_spec_runError (w : Whisper) (fs : FS) (a m : String)
    (o l : Option String) (model : Model) (e : String)
    (hex : fs.existsPath (PPath.parse a).str = true)
    (hload : w.load_model m = .ok model)
    (hrun : model.transcribe (PPath.parse a).str l = .error e) :
    transcribe w fs a m o l =
      { result := .error (.inferenceError e), fs := fs,
        events := [.loadModel m,
                   .modelTranscribe (PPath.parse a).str l] } := by
  simp [transcribe, hex, hload, hrun]

theorem transcribe_spec_success (w : Whisper) (fs : FS) (a m : String)
    (o l : Option String) (model : Model) (T : String)
    (hex : fs.existsPath (PPath.parse a).str = true)
    (hload : w.load_model m = .ok model)
    (hrun : model.transcribe (PPath.parse a).str l = .ok ⟨T⟩) :
    transcribe w fs a m o l =
      { result := .ok T,
        fs := fs.write_text (outputPathOf a o).str (pyStrip T),
        events := [.loadModel m,
                   .modelTranscribe (PPath.parse a).str l,
                   .writeFile (outputPathOf a o).str
                     (utf8Bytes (pyStrip T))] } := by
  simp [transcribe, hex, hload, hrun]

/-- Claim C1: for an existing audio file and a model whose result has text
field `T`, `transcribe` writes exactly the UTF-8 encoding of the stripped
text `pyStrip T` to the output file while returning the untrimmed `T`. -/
theorem transcribe_strip_asymmetry (w : Whisper) (fs : FS) (a m : String)
    (o l : Option String) (model : Model) (T : String)
    (hex : fs.existsPath (PPath.parse a).str = true)
    (hload : w.load_model m = .ok model)
    (hrun : model.transcribe (PPath.parse a).str l = .ok ⟨T⟩) :
    (transcribe w fs a m o l).result = .ok T ∧
    (transcribe w fs a m o l).fs.content (outputPathOf a o).str
      = some (utf8Bytes (pyStrip T)) := by
  rw [transcribe_spec_success w fs a m o l model T hex hload hrun]
  exact ⟨rfl, by simp [FS.write_text]⟩

theorem transcribe_strip_asymmetry_witness :
    ((transcribe (wStub "  hello \n") fsAudio "a.mp3" "base" none none).result
        = .ok "  hello \n" ∧
     (transcribe (wStub "  hello \n") fsAudio "a.mp3" "base" none
        none).fs.content (outputPathOf "a.mp3" none).str
        = some (utf8Bytes (pyStrip "  hello \n"))) ∧
    pyStrip "  hello \n" = "hello" ∧
    (outputPathOf "a.mp3" none).str = "a_transcript.txt" :=
  ⟨transcribe_strip_asymmetry (wStub "  hello \n") fsAudio "a.mp3" "base"
      none none ⟨fun _ _ => .ok ⟨"  hello \n"⟩⟩ "  hello \n" rfl rfl rfl,
   rfl, rfl⟩

/-- Claim C2: when the audio path does not exist, `transcribe` raises the
file-not-found error and the model-loading collaborator is never invoked
(the event trace is empty). -/
theorem transcribe_missing_input (w : Whisper) (fs : FS) (a m : String)
    (o l : Option String)
    (hex : fs.existsPath (PPath.parse a).str = false) :
    (transcribe w fs a m o l).result
      = .error (.fileNotFound
          ("Audio file not found: " ++ (PPath.parse a).str)) ∧
    (transcribe w fs a m o l).events = [] := by
  rw [transcribe_spec_missing w fs a m o l hex]
  exact ⟨rfl, rfl⟩

theorem transcribe_missing_input_witness :
    (transcribe (wStub "hi") fsEmpty "a.mp3" "base" none none).result
      = .error (.fileNotFound
          ("Audio file not found: " ++ (PPath.parse "a.mp3").str)) ∧
    (transcribe (wStub "hi") fsEmpty "a.mp3" "base" none none).events = [] :=
  transcribe_missing_input (wStub "hi") fsEmpty "a.mp3" "base" none none rfl

/-- Claim C6: the operation is all-or-nothing with respect to its output
artifact.  On any failure the filesystem is unchanged and no write event
occurred; on success the output file holds exactly the stripped text. -/
theorem transcribe_atomic_output (w : Whisper) (fs : FS) (a m : String)
    (o l : Option String) :
    (∀ e, (transcribe w fs a m o l).result = .error e →
      (transcribe w fs a m o l).fs = fs ∧
      ∀ p b, Event.writeFile p b ∉ (transcribe w fs a m o l).events) ∧
    (∀ T, (transcribe w fs a m o l).result = .ok T →
      (transcribe w fs a m o l).fs.content (outputPathOf a o).str
        = some (utf8Bytes (pyStrip T)) ∧
      Event.writeFile (outputPathOf a o).str (utf8Bytes (pyStrip T))
        ∈ (transcribe w fs a m o l).events) := by
  cases hb : fs.existsPath (PPath.parse a).str with
  | false =>
    rw [transcribe_spec_missing w fs a m o l hb]
    constructor
    · intro e _; exact ⟨rfl, by simp⟩
    · intro T hT; simp at hT
  | true =>
    cases hld : w.load_model m with
    | error e =>
      rw [transcribe_spec_loadError w fs a m o l e hb hld]
      constructor
      · intro e' _; exact ⟨rfl, by simp⟩
      · intro T hT; simp at hT
    | ok model =>
      cases hrun : model.transcribe (PPath.parse a).str l with
      | error e =>
        rw [transcribe_spec_runError w fs a m o l model e hb hld hrun]
        constructor
        · intro e' _; exact ⟨rfl, by simp⟩
        · intro T hT; simp at hT
      | ok res =>
        rw [transcribe_spec_success w fs a m o l model res.text hb hld hrun]
        constructor
        · intro e' he'; simp at he'
        · intro T hT
          simp only [Except.ok.injEq] at hT
          subst hT
          exact ⟨by simp [FS.write_text], by simp⟩

theorem transcribe_atomic_output_witness :
    ((transcribe (wStub "hi") fsEmpty "a.mp3" "base" none none).fs = fsEmpty ∧
     ∀ p b, Event.writeFile p b
       ∉ (transcribe (wStub "hi") fsEmpty "a.mp3" "base" none none).events) ∧
    ((transcribe (wStub "hi") fsAudio "a.mp3" "base" none none).fs.content
        (outputPathOf "a.mp3" none).str = some (utf8Bytes (pyStrip "hi")) ∧
     Event.writeFile (outputPathOf "a.mp3" none).str (utf8Bytes (pyStrip "hi"))
       ∈ (transcribe (wStub "hi") fsAudio "a.mp3" "base" none none).events) :=
  ⟨(transcribe_atomic_output (wStub "hi") fsEmpty "a.mp3" "base" none none).1
      (.fileNotFound ("Audio file not found: " ++ (PPath.parse "a.mp3").str))
      rfl,
   (transcribe_atomic_output (wStub "hi") fsAudio "a.mp3" "base" none none).2
      "hi" rfl⟩

/-- Claim C7: when the helper library `imageio_ffmpeg` is unavailable,
`setup_ffmpeg` raises no error, emits exactly the warning line, and leaves
the environment unchanged. -/
theorem setup_ffmpeg_soft_dependency (env : EnvSt) :
    setup_ffmpeg none env =
      .ok (env,
        ["Warning: imageio-ffmpeg not installed, assuming ffmpeg is in PATH"])
    := rfl

/-- Claim C8: re-running `transcribe` on the same input with the same
resolved output directory succeeds again and overwrites the output file;
a pre-existing file at the output path (the `fs` here is arbitrary, so it
may already hold one) never causes a failure. -/
theorem transcribe_rerun_overwrites (w : Whisper) (fs : FS) (a m : String)
    (o l : Option String) (model : Model) (T : String)
    (hex : fs.existsPath (PPath.parse a).str = true)
    (hload : w.load_model m = .ok model)
    (hrun : model.transcribe (PPath.parse a).str l = .ok ⟨T⟩) :
    (transcribe w fs a m o l).result = .ok T ∧
    (transcribe w (transcribe w fs a m o l).fs a m o l).result = .ok T ∧
    (transcribe w (transcribe w fs a m o l).fs a m o l).fs.content
        (outputPathOf a o).str = some (utf8Bytes (pyStrip T)) := by
  have h1 := transcribe_spec_success w fs a m o l model T hex hload hrun
  have hex2 : (transcribe w fs a m o l).fs.existsPath (PPath.parse a).str
      = true := by
    rw [h1]
    simp only [FS.write_text]
    split
    · rfl
    · exact hex
  have h2 := transcribe_spec_success w (transcribe w fs a m o l).fs a m o l
    model T hex2 hload hrun
  refine ⟨by rw [h1], by rw [h2], ?_⟩
  rw [h2]
  simp [FS.write_text]

theorem transcribe_rerun_overwrites_witness :
    (transcribe (wStub "hi") fsAudio "a.mp3" "base" none none).result
      = .ok "hi" ∧
    (transcribe (wStub "hi")
        (transcribe (wStub "hi") fsAudio "a.mp3" "base" none none).fs
        "a.mp3" "base" none none).result = .ok "hi" ∧
    (transcribe (wStub "hi")
        (transcribe (wStub "hi") fsAudio "a.mp3" "base" none none).fs
        "a.mp3" "base" none none).fs.content
        (outputPathOf "a.mp3" none).str = some (utf8Bytes (pyStrip "hi")) :=
  transcribe_rerun_overwrites (wStub "hi") fsAudio "a.mp3" "base" none none
    ⟨fun _ _ => .ok ⟨"hi"⟩⟩ "hi" rfl rfl rfl

/-- Claim C9: with the helper available, `setup_ffmpeg` updates only the
`PATH` variable, prepending the decoder directory to the prior value
(which is preserved as a suffix), leaves every other variable unchanged,
and the mutation persists: a successful `main` run ends with exactly that
environment. -/
theorem setup_ffmpeg_path_mutation (exe p : String) (env : EnvSt)
    (hp : env.vars "PATH" = some p) :
    ∃ env',
      setup_ffmpeg (some exe) env
        = .ok (env', ["Using ffmpeg from: " ++ (PPath.parse exe).parent.str]) ∧
      env'.vars "PATH"
        = some ((PPath.parse exe).parent.str ++ os_pathsep ++ p) ∧
      (∃ pre, (PPath.parse exe).parent.str ++ os_pathsep ++ p = pre ++ p) ∧
      (∀ k, k ≠ "PATH" → env'.vars k = env.vars k) ∧
      (∀ w fs argv args, parseArgs argv = .ok args →
        (main w (some exe) env fs argv).env = env') := by
  refine ⟨{ vars := fun k =>
      if k = "PATH" then
        some ((PPath.parse exe).parent.str ++ os_pathsep ++ p)
      else env.vars k }, ?_, ?_, ?_, ?_, ?_⟩
  · simp [setup_ffmpeg, hp]
  · simp
  · exact ⟨(PPath.parse exe).parent.str ++ os_pathsep, by simp [String.append_assoc]⟩
  · intro k hk; simp [hk]
  · intro w fs argv args hargs
    simp [main, hargs, setup_ffmpeg, hp]

theorem setup_ffmpeg_path_mutation_witness :
    env0.vars "PATH" = some "/usr/bin" ∧
    ∃ env',
      setup_ffmpeg (some "/opt/ff/bin/ffmpeg") env0
        = .ok (env',
            ["Using ffmpeg from: "
              ++ (PPath.parse "/opt/ff/bin/ffmpeg").parent.str]) ∧
      env'.vars "PATH"
        = some ((PPath.parse "/opt/ff/bin/ffmpeg").parent.str ++ os_pathsep
            ++ "/usr/bin") ∧
      (∃ pre, (PPath.parse "/opt/ff/bin/ffmpeg").parent.str ++ os_pathsep
          ++ "/usr/bin" = pre ++ "/usr/bin") ∧
      (∀ k, k ≠ "PATH" → env'.vars k = env0.vars k) ∧
      (∀ w fs argv args, parseArgs argv = .ok args →
        (main w (some "/opt/ff/bin/ffmpeg") env0 fs argv).env = env') :=
  ⟨rfl, setup_ffmpeg_path_mutation "/opt/ff/bin/ffmpeg" "/usr/bin" env0 rfl⟩

/-- Claim C10: the input precondition is a bare existence test, not a
regular-file test: the file-not-found error is raised exactly when the
path does not exist, and any existing path — including one with no file
contents, i.e. a directory — proceeds to model loading. -/
theorem transcribe_existence_check_bare (w : Whisper) (fs : FS)
    (a m : String) (o l : Option String) :
    ((∃ msg, (transcribe w fs a m o l).result
        = .error (.fileNotFound msg)) ↔
      fs.existsPath (PPath.parse a).str = false) ∧
    (fs.existsPath (PPath.parse a).str = true →
      Event.loadModel m ∈ (transcribe w fs a m o l).events) := by
  constructor
  · constructor
    · rintro ⟨msg, hres⟩
      cases hb : fs.existsPath (PPath.parse a).str with
      | false => rfl
      | true =>
        exfalso
        cases hld : w.load_model m with
        | error e =>
          rw [transcribe_spec_loadError w fs a m o l e hb hld] at hres
          simp at hres
        | ok model =>
          cases hrun : model.transcribe (PPath.parse a).str l with
          | error e =>
            rw [transcribe_spec_runError w fs a m o l model e hb hld hrun]
              at hres
            simp at hres
          | ok res =>
            rw [transcribe_spec_success w fs a m o l model res.text hb hld
              hrun] at hres
            simp at hres
    · intro hex
      rw [transcribe_spec_missing w fs a m o l hex]
      exact ⟨_, rfl⟩
  · intro hex
    cases hld : w.load_model m with
    | error e =>
      rw [transcribe_spec_loadError w fs a m o l e hex hld]; simp
    | ok model =>
      cases hrun : model.transcribe (PPath.parse a).str l with
      | error e =>
        rw [transcribe_spec_runError w fs a m o l model e hex hld hrun]; simp
      | ok res =>
        rw [transcribe_spec_success w fs a m o l model res.text hex hld hrun]
        simp

theorem transcribe_existence_check_bare_witness :
    fsDir.content "somedir" = none ∧
    Event.loadModel "base"
      ∈ (transcribe (wStub "hi") fsDir "somedir" "base" none none).events :=
  ⟨rfl,
   (transcribe_existence_check_bare (wStub "hi") fsDir "somedir" "base"
      none none).2 rfl⟩

/-! ## Argument-parsing lemmas -/

theorem parseArgsAux_positional (aud : String)
    (ha : aud.data.head? ≠ some '-') (ts : List String)
    (m? o? l? : Option String) :
    parseArgsAux (aud :: ts) none m? o? l? = parseArgsAux ts (some aud) m? o? l? := by
  have h1 : ¬(aud = "-m" ∨ aud = "--model") := by
    rintro (rfl | rfl) <;> exact ha rfl
  have h2 : ¬(aud = "-o" ∨ aud = "--output-dir") := by
    rintro (rfl | rfl) <;> exact ha rfl
  have h3 : ¬(aud = "-l" ∨ aud = "--language") := by
    rintro (rfl | rfl) <;> exact ha rfl
  have h4 : looksLikeOption aud = false := by
    unfold looksLikeOption
    cases hh : aud.data.head? with
    | none => simp [hh]
    | some c =>
      have hc : ¬c = '-' := fun e => ha (by rw [hh, e])
      simp [hh, hc]
  rw [parseArgsAux.eq_def]
  simp [h1, h2, h3, h4]

/-- Claim C4: the `language` argument is forwarded to the model's
transcribe method unchanged — every model-transcribe call in the trace
carries exactly the caller's `language`, for any string whatsoever (no
validation) — and the CLI passes `-l` through verbatim, defaulting to an
absent language (auto-detect) when `-l` is omitted. -/
theorem transcribe_language_passthrough (w : Whisper) (fs : FS)
    (a m : String) (o : Option String) (l : Option String) :
    (∀ p lg, Event.modelTranscribe p lg ∈ (transcribe w fs a m o l).events →
      lg = l) ∧
    (∀ aud v, aud.data.head? ≠ some '-' →
      parseArgs [aud] = .ok ⟨aud, "base", none, none⟩ ∧
      parseArgs [aud, "-l", v] = .ok ⟨aud, "base", none, some v⟩) := by
  constructor
  · intro p lg hmem
    cases hb : fs.existsPath (PPath.parse a).str with
    | false =>
      rw [transcribe_spec_missing w fs a m o l hb] at hmem
      simp at hmem
    | true =>
      cases hld : w.load_model m with
      | error e =>
        rw [transcribe_spec_loadError w fs a m o l e hb hld] at hmem
        simp at hmem
      | ok model =>
        cases hrun : model.transcribe (PPath.parse a).str l with
        | error e =>
          rw [transcribe_spec_runError w fs a m o l model e hb hld hrun]
            at hmem
          simp at hmem
          exact hmem.2
        | ok res =>
          rw [transcribe_spec_success w fs a m o l model res.text hb hld hrun]
            at hmem
          simp at hmem
          exact hmem.2
  · intro aud v ha
    constructor
    · rw [parseArgs, parseArgsAux_positional aud ha]; rfl
    · rw [parseArgs, parseArgsAux_positional aud ha]; rfl

theorem transcribe_language_passthrough_witness :
    ((some "en" : Option String) = some "en") ∧
    (parseArgs ["a.mp3"] = .ok ⟨"a.mp3", "base", none, none⟩ ∧
     parseArgs ["a.mp3", "-l", "en"]
       = .ok ⟨"a.mp3", "base", none, some "en"⟩) :=
  ⟨(transcribe_language_passthrough (wStub "hi") fsAudio "a.mp3" "base" none
      (some "en")).1 "a.mp3" (some "en") (by decide),
   (transcribe_language_passthrough (wStub "hi") fsAudio "a.mp3" "base" none
      (some "en")).2 "a.mp3" "en" (by decide)⟩

/-- Claim C5: the CLI accepts for `-m` exactly the five model choices with
default `"base"`; any other `-m` value is rejected at argument-parsing
time, before `setup_ffmpeg` runs and before any model load (the event
trace of the failing `main` run is empty). -/
theorem main_model_choice_validation (w : Whisper)
    (imageio_ffmpeg : Option String) (env : EnvSt) (fs : FS)
    (aud v : String) (ha : aud.data.head? ≠ some '-') :
    (v ∉ modelChoices →
      parseArgs [aud, "-m", v]
        = .error ("argument -m/--model: invalid choice: " ++ v) ∧
      main w imageio_ffmpeg env fs [aud, "-m", v]
        = { exitCode := 2, env := env, fs := fs, events := [] }) ∧
    (v ∈ modelChoices →
      parseArgs [aud, "-m", v] = .ok ⟨aud, v, none, none⟩) ∧
    parseArgs [aud] = .ok ⟨aud, "base", none, none⟩ := by
  refine ⟨?_, ?_, ?_⟩
  · intro hv
    have e1 : parseArgs [aud, "-m", v]
        = .error ("argument -m/--model: invalid choice: " ++ v) := by
      rw [parseArgs, parseArgsAux_positional aud ha]
      simp [parseArgsAux, hv]
    refine ⟨e1, ?_⟩
    rw [main, e1]
  · intro hv
    rw [parseArgs, parseArgsAux_positional aud ha]
    simp [parseArgsAux, hv]
  · rw [parseArgs, parseArgsAux_positional aud ha]; rfl

theorem main_model_choice_validation_witness :
    (parseArgs ["a.mp3", "-m", "huge"]
       = .error ("argument -m/--model: invalid choice: " ++ "huge") ∧
     main (wStub "hi") none env0 fsEmpty ["a.mp3", "-m", "huge"]
       = { exitCode := 2, env := env0, fs := fsEmpty, events := [] }) ∧
    (parseArgs ["a.mp3", "-m", "small"] = .ok ⟨"a.mp3", "small", none, none⟩) ∧
    parseArgs ["a.mp3"] = .ok ⟨"a.mp3", "base", none, none⟩ :=
  ⟨(main_model_choice_validation (wStub "hi") none env0 fsEmpty "a.mp3"
      "huge" (by decide)).1 (by decide),
   (main_model_choice_validation (wStub "hi") none env0 fsEmpty "a.mp3"
      "small" (by decide)).2.1 (by decide),
   (main_model_choice_validation (wStub "hi") none env0 fsEmpty "a.mp3"
      "small" (by decide)).2.2⟩

/-! ## Path-shape lemmas -/

theorem splitOnSlash_ne_nil (cs : List Char) : splitOnSlash cs ≠ [] := by
  induction cs with
  | nil => simp [splitOnSlash]
  | cons c cs ih =>
    unfold splitOnSlash
    split
    · simp
    · split
      · simp
      · simp

theorem no_slash_of_mem_splitOnSlash (cs : List Char) :
    ∀ g ∈ splitOnSlash cs, '/' ∉ g := by
  induction cs with
  | nil =>
    intro g hg
    simp [splitOnSlash] at hg
    simp [hg]
  | cons c cs ih =>
    intro g hg
    unfold splitOnSlash at hg
    by_cases hc : c = '/'
    · rw [if_pos hc] at hg
      rcases List.mem_cons.mp hg with rfl | hg'
      · simp
      · exact ih g hg'
    · rw [if_neg hc] at hg
      cases hsp : splitOnSlash cs with
      | nil => exact absurd hsp (splitOnSlash_ne_nil cs)
      | cons g0 gs =>
        simp only [hsp] at hg
        rcases List.mem_cons.mp hg with rfl | hg'
        · intro hmem
          rcases List.mem_cons.mp hmem with h1 | h2
          · exact hc h1.symm
          · exact ih g0 (by rw [hsp]; exact List.mem_cons_self g0 gs) h2
        · exact ih g (by rw [hsp]; exact List.mem_cons_of_mem g0 hg')

theorem splitOnSlash_no_slash (cs : List Char) (h : '/' ∉ cs) :
    splitOnSlash cs = [cs] := by
  induction cs with
  | nil => rfl
  | cons c cs ih =>
    have hc : c ≠ '/' := by
      intro e
      exact h (by rw [← e]; exact List.mem_cons_self c cs)
    have h' : '/' ∉ cs := fun m => h (List.mem_cons_of_mem c m)
    unfold splitOnSlash
    rw [if_neg hc, ih h']

theorem mem_of_getLast?_eq {α : Type} {l : List α} {a : α}
    (h : l.getLast? = some a) : a ∈ l := by
  obtain ⟨hne, heq⟩ :=
    List.mem_getLast?_eq_getLast (Option.mem_def.mpr h)
  rw [heq]
  exact List.getLast_mem hne

theorem no_slash_nameChars (p : String) : '/' ∉ (PPath.parse p).nameChars := by
  unfold PPath.nameChars
  cases hg : (PPath.parse p).parts.getLast? with
  | none => simp
  | some g =>
    simp only [Option.getD_some]
    have hmem := mem_of_getLast?_eq hg
    exact no_slash_of_mem_splitOnSlash p.data g (List.mem_of_mem_filter hmem)

theorem mem_stemChars (name : List Char) (c : Char)
    (h : c ∈ stemChars name) : c ∈ name := by
  unfold stemChars at h
  cases hf : rfindDotIdx name with
  | none => simp only [hf] at h; exact h
  | some i =>
    simp only [hf] at h
    split at h
    · exact List.mem_of_mem_take h
    · exact h

theorem no_slash_stem (p : String) : '/' ∉ (PPath.parse p).stem :=
  fun h => no_slash_nameChars p (mem_stemChars _ _ h)

theorem rfindDotIdx_eq_none (l : List Char) (h : '.' ∉ l) :
    rfindDotIdx l = none := by
  induction l with
  | nil => rfl
  | cons c cs ih =>
    have hc : ¬c = '.' := by
      intro e
      exact h (by rw [← e]; exact List.mem_cons_self c cs)
    have h' : '.' ∉ cs := fun m => h (List.mem_cons_of_mem c m)
    unfold rfindDotIdx
    rw [ih h']
    simp [hc]

theorem rfindDotIdx_append_dot (base ext : List Char) (h : '.' ∉ ext) :
    rfindDotIdx (base ++ '.' :: ext) = some base.length := by
  induction base with
  | nil =>
    show rfindDotIdx ('.' :: ext) = some 0
    unfold rfindDotIdx
    rw [rfindDotIdx_eq_none ext h]
    simp
  | cons c bs ih =>
    show rfindDotIdx (c :: (bs ++ '.' :: ext)) = some (bs.length + 1)
    unfold rfindDotIdx
    rw [ih]

theorem stemChars_extension (base ext : List Char) (hb : base ≠ [])
    (he : ext ≠ []) (hd : '.' ∉ ext) :
    stemChars (base ++ '.' :: ext) = base := by
  unfold stemChars
  rw [rfindDotIdx_append_dot base ext hd]
  have hlen : (base ++ '.' :: ext).length = base.length + (ext.length + 1) := by
    simp
  have hcond : 0 < base.length ∧
      base.length < (base ++ '.' :: ext).length - 1 := by
    have h2 : 0 < ext.length := List.length_pos.mpr he
    have h1 : 0 < base.length := List.length_pos.mpr hb
    omega
  dsimp only
  rw [if_pos hcond]
  exact List.take_left base ('.' :: ext)

theorem parse_plain_name (fn : List Char) (h1 : '/' ∉ fn) (h2 : fn ≠ [])
    (h3 : fn ≠ ['.']) : PPath.parse ⟨fn⟩ = ⟨false, [fn]⟩ := by
  have hsplit := splitOnSlash_no_slash fn h1
  have habs : (fn.head? == some '/') = false := by
    cases fn with
    | nil => exact absurd rfl h2
    | cons c rest =>
      have hc : ¬c = '/' := by
        intro e
        exact h1 (by rw [← e]; exact List.mem_cons_self c rest)
      simp [hc]
  show (⟨fn.head? == some '/',
    (splitOnSlash fn).filter (fun g => g ≠ [] ∧ g ≠ ['.'])⟩ : PPath)
    = ⟨false, [fn]⟩
  rw [habs, hsplit]
  simp [List.filter_cons, h2, h3]

theorem outputPathOf_eq (a : String) (o : Option String) :
    outputPathOf a o
      = ⟨(resolvedOutDir a o).absolute,
         (resolvedOutDir a o).parts
           ++ [(PPath.parse a).stem ++ "_transcript.txt".data]⟩ := by
  have hlit : ("_transcript.txt".data).length = 15 := rfl
  have h1 : '/' ∉ (PPath.parse a).stem ++ "_transcript.txt".data := by
    intro hm
    rcases List.mem_append.mp hm with h | h
    · exact no_slash_stem a h
    · revert h; decide
  have h2 : (PPath.parse a).stem ++ "_transcript.txt".data ≠ [] := by
    intro e
    have hl := congrArg List.length e
    rw [List.length_append, hlit] at hl
    simp at hl
  have h3 : (PPath.parse a).stem ++ "_transcript.txt".data ≠ ['.'] := by
    intro e
    have hl := congrArg List.length e
    rw [List.length_append, hlit] at hl
    simp at hl
  have hp := parse_plain_name _ h1 h2 h3
  unfold outputPathOf PPath.join
  have harg : ((⟨(PPath.parse a).stem⟩ : String) ++ "_transcript.txt")
      = (⟨(PPath.parse a).stem ++ "_transcript.txt".data⟩ : String) := rfl
  rw [harg, hp]
  simp

theorem outputPathOf_parent (a : String) (o : Option String) :
    (outputPathOf a o).parent = resolvedOutDir a o := by
  rw [outputPathOf_eq]
  unfold PPath.parent
  simp [List.dropLast_concat]

theorem outputPathOf_name (a : String) (o : Option String) :
    (outputPathOf a o).nameChars
      = (PPath.parse a).stem ++ "_transcript.txt".data := by
  rw [outputPathOf_eq]
  unfold PPath.nameChars
  simp [List.getLast?_concat]

/-- Claim C3 as stated is false of the program at `output_dir = ""`:
the empty string is falsy in Python, so `transcribe.py:63` falls back to
the audio file's own directory rather than using `Path("")`.  Here, at a
concrete successful call with `output_dir = some ""`, the program writes
`dir/talk_transcript.txt`, while the path the claim prescribes for that
`output_dir` — `Path("") / "talk_transcript.txt"` — is
`talk_transcript.txt`. -/
theorem transcribe_output_path_counterexample :
    (transcribe (wStub "hi") fsTalk "dir/talk.mp3" "base" (some "")
        none).result = .ok "hi" ∧
    Event.writeFile "dir/talk_transcript.txt" (utf8Bytes (pyStrip "hi"))
      ∈ (transcribe (wStub "hi") fsTalk "dir/talk.mp3" "base" (some "")
          none).events ∧
    ((PPath.parse "").join
        ((⟨(PPath.parse "dir/talk.mp3").stem⟩ : String)
          ++ "_transcript.txt")).str = "talk_transcript.txt" ∧
    resolvedOutDir "dir/talk.mp3" (some "") ≠ PPath.parse "" ∧
    (outputPathOf "dir/talk.mp3" (some "")).str ≠ "talk_transcript.txt" :=
  ⟨rfl, by decide, rfl, by decide, by decide⟩

/-- Claim C3 (amended): on success the output file is written at the path
whose directory is the given `output_dir` when it is present and
non-empty, and the audio file's own directory when `output_dir` is
omitted or empty (Python truthiness treats `""` like an absent
`output_dir`), and whose name is the audio stem followed by
`_transcript.txt`; the stem drops the extension whatever that extension
is. -/
theorem transcribe_output_path (w : Whisper) (fs : FS) (a m : String)
    (o l : Option String) (model : Model) (T : String)
    (hex : fs.existsPath (PPath.parse a).str = true)
    (hload : w.load_model m = .ok model)
    (hrun : model.transcribe (PPath.parse a).str l = .ok ⟨T⟩) :
    Event.writeFile (outputPathOf a o).str (utf8Bytes (pyStrip T))
      ∈ (transcribe w fs a m o l).events ∧
    (outputPathOf a o).parent = resolvedOutDir a o ∧
    (outputPathOf a o).nameChars
      = (PPath.parse a).stem ++ "_transcript.txt".data ∧
    resolvedOutDir a none = (PPath.parse a).parent ∧
    resolvedOutDir a (some "") = (PPath.parse a).parent ∧
    (∀ d, d ≠ "" → resolvedOutDir a (some d) = PPath.parse d) ∧
    (∀ base ext : List Char, base ≠ [] → ext ≠ [] → '.' ∉ ext →
      stemChars (base ++ '.' :: ext) = base) := by
  refine ⟨?_, outputPathOf_parent a o, outputPathOf_name a o, rfl,
    by simp [resolvedOutDir],
    fun d hd => by simp [resolvedOutDir, hd],
    fun b e hb he hd => stemChars_extension b e hb he hd⟩
  rw [transcribe_spec_success w fs a m o l model T hex hload hrun]
  simp

theorem transcribe_output_path_witness :
    Event.writeFile (outputPathOf "dir/talk.mp3" none).str
        (utf8Bytes (pyStrip "hi"))
      ∈ (transcribe (wStub "hi") fsTalk "dir/talk.mp3" "base" none
          none).events ∧
    resolvedOutDir "dir/talk.mp3" (some "out") = PPath.parse "out" ∧
    (outputPathOf "dir/talk.mp3" none).str = "dir/talk_transcript.txt" ∧
    (outputPathOf "dir/talk.mp3" (some "out")).str
      = "out/talk_transcript.txt" :=
  ⟨(transcribe_output_path (wStub "hi") fsTalk "dir/talk.mp3" "base" none
      none ⟨fun _ _ => .ok ⟨"hi"⟩⟩ "hi" rfl rfl rfl).1,
   (transcribe_output_path (wStub "hi") fsTalk "dir/talk.mp3" "base"
      (some "out") none ⟨fun _ _ => .ok ⟨"hi"⟩⟩ "hi" rfl rfl
      rfl).2.2.2.2.2.1 "out" (by decide),
   rfl, rfl⟩

end Audiofile
